import Mathlib

/-!
Shallow embedding of the result-streaming and download-orchestration core of
`harmony-py` (`src/harmony/client.py`): the `Client.iterator` polling loop, the
retry wrapper around `Client._get_json`, the seen-item counting over `data`
links, and the download path (`Client.download`, `Client._download_file`,
`Client.get_download_filename_from_url`, `Client._is_staged_result`).

Python strings are modelled as Lean `String`; the handful of `urllib.parse`
operations the code uses (stripping the query component, extracting the
network location and the query component, `parse_qsl`) are modelled at the
character level with the same observable behavior on the inputs the client
handles.  Percent/plus decoding of query values is not modelled: values are
carried verbatim, which is invisible to every property below.  Network and
filesystem effects are modelled explicitly: the status fetch is an oracle
indexed by the global attempt counter and the URL fetched, the filesystem is
the list of existing file paths, and a download run records the HTTP request
it would issue (if any) instead of performing it.
-/

namespace HarmonyPy

/-- Decidable equality for `Except`, used to evaluate the fallible
functions below on concrete inputs. -/
instance {e a : Type} [DecidableEq e] [DecidableEq a] : DecidableEq (Except e a) := fun x y =>
  match x, y with
  | .error u, .error v =>
    if h : u = v then .isTrue (congrArg Except.error h)
    else .isFalse (fun hc => h (Except.error.inj hc))
  | .error _, .ok _ => .isFalse (fun hc => Except.noConfusion hc)
  | .ok _, .error _ => .isFalse (fun hc => Except.noConfusion hc)
  | .ok u, .ok v =>
    if h : u = v then .isTrue (congrArg Except.ok h)
    else .isFalse (fun hc => h (Except.ok.inj hc))

/-! ### Character-level string helpers (Python `str` / `urllib.parse` behavior) -/

/-- Python `s.endswith(suffix)`. -/
def endsWith (s suf : String) : Bool := suf.data.isSuffixOf s.data

/-- Python `s.startswith(p)`. -/
def startsWith (s p : String) : Bool := p.data.isPrefixOf s.data

/-- Python `sub in s` (substring containment). -/
def containsSub (s sub : String) : Bool :=
  (s.data.tails).any (fun t => sub.data.isPrefixOf t)

/-- Python `s.split(c)` on a character list: always returns at least one
(possibly empty) piece, with empty pieces between adjacent separators. -/
def splitOnChar (c : Char) : List Char → List (List Char)
  | [] => [[]]
  | x :: xs =>
    let r := splitOnChar c xs
    if x = c then [] :: r
    else
      match r with
      | [] => [[x]]
      | y :: ys => (x :: y) :: ys

/-- Python `s.split(c)` on `String`. -/
def pySplit (s : String) (c : Char) : List String :=
  (splitOnChar c s.data).map (fun l => ⟨l⟩)

/-- Python `s.replace(':', '_')`. -/
def replaceColon (s : String) : String :=
  ⟨s.data.map (fun c => if c = ':' then '_' else c)⟩

/-- After a `?` has been seen: drop characters up to the first `#`
(the fragment survives query removal, as in `urlunparse`). -/
def keepFromHash : List Char → List Char
  | [] => []
  | c :: cs => if c = '#' then c :: cs else keepFromHash cs

/-- Character-level model of
`urlunparse(urlparse(url)._replace(query=""))`: remove the span from the
first `?` (occurring before any `#`) up to the first following `#`. -/
def stripQueryChars : List Char → List Char
  | [] => []
  | c :: cs =>
    if c = '#' then c :: cs
    else if c = '?' then keepFromHash cs
    else c :: stripQueryChars cs

/-- `urlunparse(urlparse(url)._replace(query=""))` on `String`. -/
def strip_query (url : String) : String := ⟨stripQueryChars url.data⟩

/-- The query component of `urlsplit(url)`: the characters strictly between
the first `?` (occurring before any `#`) and the first following `#`. -/
def queryChars : List Char → List Char
  | [] => []
  | c :: cs =>
    if c = '#' then []
    else if c = '?' then cs.takeWhile (fun d => d ≠ '#')
    else queryChars cs

/-- `urlsplit(url).query` on `String`. -/
def query_string (url : String) : String := ⟨queryChars url.data⟩

/-- Characters allowed in a URL scheme after the leading letter. -/
def isSchemeChar (c : Char) : Bool :=
  c.isAlphanum || c == '+' || c == '-' || c == '.'

/-- Strip a leading `scheme:` (a leading letter followed by scheme
characters, up to a colon), as `urlsplit` does before looking for `//`. -/
def splitSchemeRest (cs : List Char) : List Char :=
  let pre := cs.takeWhile (fun c => c ≠ ':')
  if pre.length < cs.length ∧ pre ≠ [] ∧
      (pre.headD ' ').isAlpha ∧ pre.all isSchemeChar then
    cs.drop (pre.length + 1)
  else
    cs

/-- `urlparse(url).netloc`: nonempty only when (after any scheme) the URL
continues with `//`; extends to the first `/`, `?` or `#`. -/
def netloc (url : String) : String :=
  match splitSchemeRest url.data with
  | '/' :: '/' :: r => ⟨r.takeWhile (fun c => c ≠ '/' ∧ c ≠ '?' ∧ c ≠ '#')⟩
  | _ => ⟨[]⟩

/-- `urllib.parse.parse_qsl(q)` without percent/plus decoding: split on `&`,
keep only chunks containing `=` with a nonempty value (default
`keep_blank_values=False`), name = text before the first `=`. -/
def parse_qsl_pairs (q : String) : List (String × String) :=
  (splitOnChar '&' q.data).filterMap fun chunk =>
    let name := chunk.takeWhile (fun c => c ≠ '=')
    if name.length = chunk.length then none
    else
      let value := chunk.drop (name.length + 1)
      if value.isEmpty then none
      else some (⟨name⟩, ⟨value⟩)

/-- Python `dict(pairs)`: insertion order of first occurrence of each key,
last value for a key wins. -/
def dict_of_pairs (ps : List (String × String)) : List (String × String) :=
  ps.foldl
    (fun acc kv =>
      if acc.any (fun kv2 => kv2.1 == kv.1) then
        acc.map (fun kv2 => if kv2.1 == kv.1 then (kv2.1, kv.2) else kv2)
      else acc ++ [kv])
    []

/-- `os.path.join(directory, filename)` on POSIX, for the cases the client
can produce (the second argument never contains `/` except possibly as a
leading character of an absolute path). -/
def os_path_join (d f : String) : String :=
  if startsWith f "/" then f
  else if d = "" then f
  else if endsWith d "/" then d ++ f
  else d ++ "/" ++ f

/-! ### Data model (status documents and yielded results) -/

/-- `harmony.BBox`: a named tuple `(w, s, e, n)`.  The numeric carrier is
`Rat`; the client only moves the four numbers around, never computes with
them. -/
structure BBox where
  w : Rat
  s : Rat
  e : Rat
  n : Rat
deriving DecidableEq

/-- One entry of a status document's `links` array.  Only `rel` and `href`
steer control flow; `bbox` (a 4-element array) and `temporal` (a dict with
`start`/`end`) are copied into the yielded descriptor. -/
structure Link where
  rel : String
  href : String
  bbox : Rat × Rat × Rat × Rat
  temporal : String × String
deriving DecidableEq

/-- One parsed job status document: the fields `Client.iterator` reads. -/
structure StatusPage where
  status : String
  message : String
  links : List Link
deriving DecidableEq

/-- A task submitted to the client's `ThreadPoolExecutor`: the argument
triple of the scheduled `Client._download_file` call.  Stands for the
`Future` returned by `Client.download`. -/
structure Future where
  url : String
  directory : String
  overwrite : Bool
deriving DecidableEq

/-- One dictionary yielded by `Client.iterator`:
`{'path': future, 'bbox': BBox(...), 'temporal': ...}`. -/
structure GranuleResult where
  path : Future
  bbox : BBox
  temporal : String × String
deriving DecidableEq

/-- How a run of the iterator ends (fuel permitting): the generator's
`return None`, the two `raise Exception(...)` sites, the zarr exception
propagating out of `Client.download`, or fuel exhaustion of the model. -/
inductive IterStop
  | finished
  | jobFailed (msg : String)
  | fetchFailed
  | downloadRejected
  | fuelOut
deriving DecidableEq

/-! ### Download scheduling (`Client.download`) -/

/-- `Client.zarr_download_exception_msg`. -/
def zarr_download_exception_msg : String :=
  "The zarr library must be used for zarr files. " ++
  "See https://github.com/nasa/harmony/blob/main/docs/Harmony%20Feature%20Examples.ipynb " ++
  "for zarr library usage example."

/-- `Client.download`: raises the zarr exception for URLs ending in `zarr`,
otherwise submits `_download_file(url, directory, overwrite)` to the worker
pool and returns the future at once. -/
def download (url directory : String) (overwrite : Bool) : Except String Future :=
  if endsWith url "zarr" then .error zarr_download_exception_msg
  else .ok ⟨url, directory, overwrite⟩

/-! ### The polling loop (`Client.iterator`) -/

/-- `os.getenv('GET_JSON_RETRY_LIMIT', 3)` default. -/
def GET_JSON_RETRY_LIMIT_default : Nat := 3

/-- `os.getenv('GET_JSON_RETRY_SLEEP', 1.0)` default, in seconds. -/
def GET_JSON_RETRY_SLEEP_default : Rat := 1

/-- `Client._status_url(job_id)` with the default `LinkType.https`. -/
def status_url (root_url job_id : String) : String :=
  root_url ++ "/jobs/" ++ job_id ++ "?linktype=https"

/-- The `while not response` retry loop around `self._get_json(next_url)`.
`get_json i u` is the outcome of the `i`-th `_get_json` call of the whole
run when fetching URL `u`.  The second `Nat` argument is the global attempt
counter before this loop; the last argument is `GET_JSON_RETRY_LIMIT -
get_json_try_count` at the top of an iteration (at entry, the retry limit
itself).  On success returns the page and the new attempt counter; on
exhaustion (`raise Exception('Failed to get or parse job status page')`)
returns the attempt counter after the last failed attempt.  Note the loop
always makes at least one attempt, even with limit 0. -/
def get_json_with_retry (get_json : Nat → String → Except Unit StatusPage)
    (url : String) (idx : Nat) : Nat → Except Nat (StatusPage × Nat)
  | 0 =>
    match get_json idx url with
    | .ok page => .ok (page, idx + 1)
    | .error _ => .error (idx + 1)
  | 1 =>
    match get_json idx url with
    | .ok page => .ok (page, idx + 1)
    | .error _ => .error (idx + 1)
  | n + 2 =>
    match get_json idx url with
    | .ok page => .ok (page, idx + 1)
    | .error _ => get_json_with_retry get_json url (idx + 1) (n + 1)

/-- The `for link in links` loop body of `Client.iterator`.  Arguments after
the link list: `link_index`, `current_page_granule_count`, `next_url`.
Returns the granules yielded while traversing the remaining links, the
final `current_page_granule_count`, and the final `next_url`; an `error`
result is the zarr exception from `download` propagating, carrying the
granules yielded before the raise. -/
def processLinks (directory : String) (overwrite : Bool) :
    List Link → Nat → Nat → Option String →
    Except (List GranuleResult) (List GranuleResult × Nat × Option String)
  | [], _, count, nextUrl => .ok ([], count, nextUrl)
  | l :: rest, linkIndex, count, nextUrl =>
    if l.rel = "data" then
      if linkIndex + 1 > count then
        match download l.href directory overwrite with
        | .error _ => .error []
        | .ok future =>
          let g : GranuleResult :=
            ⟨future, ⟨l.bbox.1, l.bbox.2.1, l.bbox.2.2.1, l.bbox.2.2.2⟩, l.temporal⟩
          match processLinks directory overwrite rest (linkIndex + 1) (linkIndex + 1) nextUrl with
          | .ok (gs, c, nu) => .ok (g :: gs, c, nu)
          | .error gs => .error (g :: gs)
      else processLinks directory overwrite rest (linkIndex + 1) count nextUrl
    else if l.rel = "next" then
      processLinks directory overwrite rest linkIndex count (some l.href)
    else
      processLinks directory overwrite rest linkIndex count nextUrl

/-- The membership test `status in {'successful', 'paused', 'canceled',
'complete_with_errors'}`. -/
def terminalStatuses : List String :=
  ["successful", "paused", "canceled", "complete_with_errors"]

/-- The `while next_url` loop of `Client.iterator`, as a fuel-indexed
function from the loop state (current URL, global `_get_json` attempt
counter, `current_page_granule_count`) to the list of yielded granules and
the way the run ends.  Wall-clock sleeps do not alter control flow and are
modelled separately (`pollSleepSeconds`). -/
def iterLoop (get_json : Nat → String → Except Unit StatusPage)
    (retryLimit : Nat) (directory : String) (overwrite : Bool) :
    Nat → String → Nat → Nat → List GranuleResult × IterStop
  | 0, _, _, _ => ([], .fuelOut)
  | fuel + 1, url, idx, count =>
    match get_json_with_retry get_json url idx retryLimit with
    | .error _ => ([], .fetchFailed)
    | .ok (response, idx') =>
      if response.status = "failed" then ([], .jobFailed response.message)
      else
        match processLinks directory overwrite response.links 0 count none with
        | .error gs => (gs, .downloadRejected)
        | .ok (gs, count', nextUrl) =>
          match nextUrl with
          | some u =>
            let rest := iterLoop get_json retryLimit directory overwrite fuel u idx' 0
            (gs ++ rest.1, rest.2)
          | none =>
            if response.status ∈ terminalStatuses then (gs, .finished)
            else
              let rest := iterLoop get_json retryLimit directory overwrite fuel url idx' count'
              (gs ++ rest.1, rest.2)

/-- `Client.iterator(job_id, directory, overwrite)`: every call builds a
fresh cursor — the original status URL, attempt counter 0 and
`current_page_granule_count = 0`. -/
def iterator (get_json : Nat → String → Except Unit StatusPage)
    (retryLimit : Nat) (root_url job_id directory : String) (overwrite : Bool)
    (fuel : Nat) : List GranuleResult × IterStop :=
  iterLoop get_json retryLimit directory overwrite fuel (status_url root_url job_id) 0 0

/-- The pacing branch (client.py lines 1122–1125): the number of seconds
slept before re-fetching an unchanged page, given `check_interval` and the
seconds elapsed since the last pull. -/
def pollSleepSeconds (check_interval seconds_since_last_pull : Rat) : Rat :=
  if seconds_since_last_pull < check_interval then
    check_interval - seconds_since_last_pull
  else 0

/-! ### Filename derivation (`get_download_filename_from_url`, `_is_staged_result`) -/

/-- The lowercase hexadecimal digits. -/
def hexLowerDigits : List Char := "0123456789abcdef".data

/-- The net effect of `UUID(s, version=4)` followed by `str(uuid_obj) == s`:
`UUID(..., version=4)` overwrites the version nibble with `4` and the two
variant bits with `10`, and `str` renders canonical lowercase hyphenated
form, so the round trip reproduces `s` exactly when `s` already is a
canonical lowercase hyphenated UUID whose version nibble is `4` and whose
variant character is one of `8`, `9`, `a`, `b`.  (Any other accepted input
spelling — uppercase, braces, missing hyphens, `urn:` prefixes — fails the
final string comparison in the source.) -/
def is_canonical_uuid4 (s : String) : Bool :=
  let cs := s.data
  decide (cs.length = 36) &&
  (List.range 36).all fun i =>
    if i = 8 ∨ i = 13 ∨ i = 18 ∨ i = 23 then cs.getD i ' ' == '-'
    else if i = 14 then cs.getD i ' ' == '4'
    else if i = 19 then "89ab".data.contains (cs.getD i ' ')
    else hexLowerDigits.contains (cs.getD i ' ')

/-- Python `s.isnumeric()` restricted to ASCII digit strings (non-ASCII
numerics are out of the modelled alphabet). -/
def py_isnumeric (s : String) : Bool :=
  !s.data.isEmpty && s.data.all Char.isDigit

/-- `Client._is_staged_result(url)`.  The `error` case is the uncaught
`IndexError` from `url_parts[-3]` when the URL contains `harmony` but
splits into fewer than three `/`-separated parts. -/
def is_staged_result (url : String) : Except Unit Bool :=
  if !containsSub url "harmony" then .ok false
  else
    let url_parts := pySplit url '/'
    if url_parts.length < 3 then .error ()
    else
      let possible_uuid := url_parts.getD (url_parts.length - 3) ""
      let possible_item_id := url_parts.getD (url_parts.length - 2) ""
      if !is_canonical_uuid4 possible_uuid then .ok false
      else if !py_isnumeric possible_item_id then .ok false
      else .ok true

/-- `Client.get_download_filename_from_url(url)`. -/
def get_download_filename_from_url (url : String) : Except Unit String :=
  let url_no_query := strip_query url
  let url_parts := pySplit url_no_query '/'
  let original_filename := url_parts.getLastD ""
  match is_staged_result url_no_query with
  | .error e => .error e
  | .ok staged =>
    if !staged then .ok (replaceColon original_filename)
    else
      let item_id := url_parts.getD (url_parts.length - 2) ""
      .ok (replaceColon (item_id ++ "_" ++ original_filename))

/-! ### The download worker (`Client._download_file`) -/

/-- The single HTTP request a `_download_file` run issues:
`getattr(session, method)(new_url, data=data_dict, stream=True, ...)`. -/
structure HttpRequest where
  method : String
  url : String
  body : Option (List (String × String))
deriving DecidableEq

/-- Observable outcome of one `_download_file` run: the returned path, the
request issued (`none` when the existing-file short circuit fires), and the
path written (`none` when nothing is written). -/
structure DownloadFileRun where
  returned_path : String
  request : Option HttpRequest
  wrote_file : Option String
deriving DecidableEq

/-- `Client._download_file(url, directory, overwrite)` against an explicit
filesystem (`existing_files` = the set of paths for which `os.path.isfile`
is true).  The `error` case is the `IndexError` propagating out of the
filename computation.  Download content and chunked streaming are not
observable here; only the request shape and file-writing behavior are. -/
def download_file (existing_files : List String) (url directory : String)
    (overwrite : Bool) : Except Unit DownloadFileRun :=
  match get_download_filename_from_url url with
  | .error e => .error e
  | .ok filename0 =>
    let filename := if directory = "" then filename0 else os_path_join directory filename0
    if !overwrite && existing_files.contains filename then
      .ok ⟨filename, none, none⟩
    else
      let is_opendap := startsWith (netloc url) "opendap"
      if is_opendap then
        let new_url := strip_query url
        let data_dict := dict_of_pairs (parse_qsl_pairs (query_string url))
        .ok ⟨filename, some ⟨"post", new_url, some data_dict⟩, some filename⟩
      else
        .ok ⟨filename, some ⟨"get", url, none⟩, some filename⟩

/-! ### Derived views of a page, used to state the properties -/

/-- The `data`-rel links of a page, in page order (the spec's Link
Classifier output). -/
def dataLinks (links : List Link) : List Link :=
  links.filter (fun l => l.rel == "data")

/-- The value `next_url` holds after the `for link in links` loop, starting
from `nu`: the `href` of the last `next`-rel link, if any. -/
def lastNextUrl (links : List Link) (nu : Option String) : Option String :=
  links.foldl (fun acc l => if l.rel == "next" then some l.href else acc) nu

/-- No `data` link of the page triggers the zarr rejection in `download`. -/
def zarrFree (links : List Link) : Prop :=
  ∀ l ∈ links, l.rel = "data" → endsWith l.href "zarr" = false

instance (links : List Link) : Decidable (zarrFree links) := by
  unfold zarrFree; infer_instance

/-- The granule dictionary the iterator yields for a `data` link. -/
def mkGranule (directory : String) (overwrite : Bool) (l : Link) : GranuleResult :=
  ⟨⟨l.href, directory, overwrite⟩, ⟨l.bbox.1, l.bbox.2.1, l.bbox.2.2.1, l.bbox.2.2.2⟩,
    l.temporal⟩

/-! ### Characterization of the link-processing loop -/

/-- On a zarr-free link list, the `for link in links` loop yields exactly
the `data` links beyond the seen counter (in page order), advances the
counter to the number of `data` links when that is larger, and leaves
`next_url` at the last `next` link. -/
theorem processLinks_eq (directory : String) (overwrite : Bool)
    (links : List Link) :
    ∀ (linkIndex count : Nat) (nextUrl : Option String),
      linkIndex ≤ count → zarrFree links →
      processLinks directory overwrite links linkIndex count nextUrl =
        .ok (((dataLinks links).drop (count - linkIndex)).map (mkGranule directory overwrite),
             max count (linkIndex + (dataLinks links).length),
             lastNextUrl links nextUrl) := by
  induction links with
  | nil =>
    intro li count nu hle _
    simp [processLinks, dataLinks, lastNextUrl]
    omega
  | cons l rest ih =>
    intro li count nu hle hz
    have hzrest : zarrFree rest := fun x hx hd => hz x (List.mem_cons_of_mem _ hx) hd
    by_cases hd : l.rel = "data"
    · have hdl : dataLinks (l :: rest) = l :: dataLinks rest := by
        simp [dataLinks, List.filter_cons, hd]
      have hnu : lastNextUrl (l :: rest) nu = lastNextUrl rest nu := by
        simp [lastNextUrl, hd]
      by_cases hgt : li + 1 > count
      · have hcount : count = li := by omega
        subst hcount
        have hzl : endsWith l.href "zarr" = false := hz l (List.mem_cons_self _ _) hd
        simp [processLinks, hd, hgt, download, hzl,
          ih (count + 1) (count + 1) nu (Nat.le_refl _) hzrest, hdl, hnu, mkGranule]
        omega
      · have hdrop : count - li = (count - (li + 1)) + 1 := by omega
        simp [processLinks, hd, hgt, ih (li + 1) count nu (by omega) hzrest, hdl, hnu,
          hdrop, List.drop_succ_cons]
        omega
    · have hdl : dataLinks (l :: rest) = dataLinks rest := by
        simp [dataLinks, List.filter_cons, hd]
      by_cases hn : l.rel = "next"
      · simp [processLinks, hd, hn, ih li count (some l.href) hle hzrest, hdl,
          lastNextUrl]
      · simp [processLinks, hd, hn, ih li count nu hle hzrest, hdl, lastNextUrl]

/-- When the `_get_json` call at the current attempt counter succeeds, the
retry wrapper returns its page at once and consumes one attempt, whatever
the retry limit. -/
theorem get_json_with_retry_ok (get_json : Nat → String → Except Unit StatusPage)
    (url : String) (idx : Nat) (page : StatusPage)
    (h : get_json idx url = .ok page) :
    ∀ retryLimit, get_json_with_retry get_json url idx retryLimit = .ok (page, idx + 1)
  | 0 => by simp [get_json_with_retry, h]
  | 1 => by simp [get_json_with_retry, h]
  | _ + 2 => by simp [get_json_with_retry, h]

/-- On a page without `next` links the loop leaves `next_url` unchanged. -/
theorem lastNextUrl_id (links : List Link) (h : ∀ l ∈ links, l.rel ≠ "next") :
    ∀ acc, lastNextUrl links acc = acc := by
  induction links with
  | nil => intro acc; rfl
  | cons l rest ih =>
    intro acc
    have hl : (l.rel == "next") = false :=
      beq_eq_false_iff_ne.mpr (h l (List.mem_cons_self _ _))
    show lastNextUrl (l :: rest) acc = acc
    unfold lastNextUrl
    rw [List.foldl_cons]
    simp only [hl, Bool.false_eq_true, if_false]
    exact ih (fun x hx => h x (List.mem_cons_of_mem _ hx)) acc

/-- The seen counter (`current_page_granule_count`) never decreases across
one pass of the `for link in links` loop, whatever the page contents. -/
theorem processLinks_count_mono (directory : String) (overwrite : Bool)
    (links : List Link) :
    ∀ (linkIndex count : Nat) (nextUrl : Option String)
      (gs : List GranuleResult) (c' : Nat) (nu' : Option String),
      processLinks directory overwrite links linkIndex count nextUrl = .ok (gs, c', nu') →
      count ≤ c' := by
  induction links with
  | nil =>
    intro li count nu gs c' nu' h
    simp [processLinks] at h
    omega
  | cons l rest ih =>
    intro li count nu gs c' nu' h
    by_cases hd : l.rel = "data"
    · by_cases hgt : li + 1 > count
      · simp [processLinks, hd, hgt] at h
        rcases hdl : download l.href directory overwrite with e | future
        · rw [hdl] at h; simp at h
        · rw [hdl] at h
          rcases hrec : processLinks directory overwrite rest (li + 1) (li + 1) nu with
            gs2 | ⟨gs2, c2, nu2⟩
          · rw [hrec] at h; simp at h
          · rw [hrec] at h
            simp at h
            obtain ⟨-, h2, -⟩ := h
            have := ih (li + 1) (li + 1) nu gs2 c2 nu2 hrec
            omega
      · simp [processLinks, hd, hgt] at h
        have := ih (li + 1) count nu gs c' nu' h
        omega
    · by_cases hn : l.rel = "next"
      · simp [processLinks, hd, hn] at h
        exact ih li count (some l.href) gs c' nu' h
      · simp [processLinks, hd, hn] at h
        exact ih li count nu gs c' nu' h

/-- A page snapshot that keeps the iterator polling the same URL: its
status is neither `failed` nor terminal, it has no `next` link, and no
`data` link triggers the zarr rejection. -/
def refetchPage (p : StatusPage) : Prop :=
  p.status ≠ "failed" ∧ p.status ∉ terminalStatuses ∧
  (∀ l ∈ p.links, l.rel ≠ "next") ∧ zarrFree p.links

instance (p : StatusPage) : Decidable (refetchPage p) := by
  unfold refetchPage; infer_instance

/-- Successive extension of the `data`-link list propagates to any two
snapshots in the sequence. -/
theorem chain_extends (D : Nat → List Link)
    (hgrow : ∀ k, ∃ t, D (k + 1) = D k ++ t) :
    ∀ s k, ∃ t, D (s + k) = D s ++ t := by
  intro s k
  induction k with
  | zero => exact ⟨[], (List.append_nil _).symm⟩
  | succ k ih =>
    obtain ⟨t, ht⟩ := ih
    obtain ⟨u, hu⟩ := hgrow (s + k)
    exact ⟨t ++ u, by rw [← Nat.add_assoc, hu, ht, List.append_assoc]⟩

/-- One loop iteration on a fetched page whose status is `failed`: the
iterator raises at once, carrying the page's `message`, yielding nothing
from that page, for every retry limit and seen count. -/
theorem iterLoop_step_failed (get_json : Nat → String → Except Unit StatusPage)
    (retryLimit : Nat) (directory : String) (overwrite : Bool)
    (fuel : Nat) (url : String) (idx count : Nat) (page : StatusPage)
    (hfetch : get_json idx url = .ok page)
    (hst : page.status = "failed") :
    iterLoop get_json retryLimit directory overwrite (fuel + 1) url idx count =
      ([], .jobFailed page.message) := by
  simp only [iterLoop, get_json_with_retry_ok get_json url idx page hfetch retryLimit]
  rw [if_pos hst]

/-- One loop iteration on a fetched, zarr-free, non-`failed` page without
`next` links whose status is terminal: the new items beyond the seen count
are yielded and the sequence ends cleanly. -/
theorem iterLoop_step_terminal (get_json : Nat → String → Except Unit StatusPage)
    (retryLimit : Nat) (directory : String) (overwrite : Bool)
    (fuel : Nat) (url : String) (idx count : Nat) (page : StatusPage)
    (hfetch : get_json idx url = .ok page)
    (hterm : page.status ∈ terminalStatuses)
    (hnn : ∀ l ∈ page.links, l.rel ≠ "next")
    (hz : zarrFree page.links) :
    iterLoop get_json retryLimit directory overwrite (fuel + 1) url idx count =
      (((dataLinks page.links).drop count).map (mkGranule directory overwrite),
       .finished) := by
  have hnf : page.status ≠ "failed" := by
    intro heq
    rw [heq] at hterm
    exact (by decide : ¬ ("failed" ∈ terminalStatuses)) hterm
  simp only [iterLoop, get_json_with_retry_ok get_json url idx page hfetch retryLimit,
    processLinks_eq directory overwrite page.links 0 count none (Nat.zero_le _) hz,
    lastNextUrl_id page.links hnn]
  rw [if_neg hnf, if_pos hterm]
  simp

/-- One loop iteration on a fetched, zarr-free, non-`failed` page without
`next` links whose status is neither `failed` nor terminal: the new items
are yielded and the loop re-fetches the same URL, with the seen count
advanced and never decreased. -/
theorem iterLoop_step_refetch (get_json : Nat → String → Except Unit StatusPage)
    (retryLimit : Nat) (directory : String) (overwrite : Bool)
    (fuel : Nat) (url : String) (idx count : Nat) (page : StatusPage)
    (hfetch : get_json idx url = .ok page)
    (hnf : page.status ≠ "failed")
    (hnt : page.status ∉ terminalStatuses)
    (hnn : ∀ l ∈ page.links, l.rel ≠ "next")
    (hz : zarrFree page.links) :
    iterLoop get_json retryLimit directory overwrite (fuel + 1) url idx count =
      (((dataLinks page.links).drop count).map (mkGranule directory overwrite) ++
        (iterLoop get_json retryLimit directory overwrite fuel url (idx + 1)
          (max count (dataLinks page.links).length)).1,
       (iterLoop get_json retryLimit directory overwrite fuel url (idx + 1)
          (max count (dataLinks page.links).length)).2) := by
  simp only [iterLoop, get_json_with_retry_ok get_json url idx page hfetch retryLimit,
    processLinks_eq directory overwrite page.links 0 count none (Nat.zero_le _) hz,
    lastNextUrl_id page.links hnn]
  rw [if_neg hnf, if_neg hnt]
  simp

/-- One loop iteration on a fetched, zarr-free, non-`failed` page holding a
`next` link: the page's new items are yielded, then the loop moves to the
`next` URL with the seen count reset to zero, whatever the page status. -/
theorem iterLoop_step_next (get_json : Nat → String → Except Unit StatusPage)
    (retryLimit : Nat) (directory : String) (overwrite : Bool)
    (fuel : Nat) (url : String) (idx count : Nat) (page : StatusPage) (u : String)
    (hfetch : get_json idx url = .ok page)
    (hnf : page.status ≠ "failed")
    (hnext : lastNextUrl page.links none = some u)
    (hz : zarrFree page.links) :
    iterLoop get_json retryLimit directory overwrite (fuel + 1) url idx count =
      (((dataLinks page.links).drop count).map (mkGranule directory overwrite) ++
        (iterLoop get_json retryLimit directory overwrite fuel u (idx + 1) 0).1,
       (iterLoop get_json retryLimit directory overwrite fuel u (idx + 1) 0).2) := by
  simp only [iterLoop, get_json_with_retry_ok get_json url idx page hfetch retryLimit,
    processLinks_eq directory overwrite page.links 0 count none (Nat.zero_le _) hz,
    hnext]
  rw [if_neg hnf]
  simp

/-- Re-fetching an unchanged URL whose `data`-link list only ever grows by
appending: across the whole run the loop yields each link index exactly
once — the concatenated yields are exactly the suffix of the final
snapshot's `data` links beyond the initial seen count, in order. -/
theorem iterLoop_refetch (get_json : Nat → String → Except Unit StatusPage)
    (pages : Nat → StatusPage) (retryLimit : Nat) (directory url : String)
    (overwrite : Bool)
    (hfetch : ∀ k, get_json k url = .ok (pages k))
    (hgood : ∀ k, refetchPage (pages k))
    (hgrow : ∀ k, ∃ t,
      dataLinks (pages (k + 1)).links = dataLinks (pages k).links ++ t) :
    ∀ (f s count : Nat), count ≤ (dataLinks (pages s).links).length →
      iterLoop get_json retryLimit directory overwrite (f + 1) url s count =
        (((dataLinks (pages (s + f)).links).drop count).map (mkGranule directory overwrite),
         .fuelOut) := by
  intro f
  induction f with
  | zero =>
    intro s count hcount
    obtain ⟨hnf, hnt, hnn, hz⟩ := hgood s
    rw [iterLoop_step_refetch get_json retryLimit directory overwrite 0 url s count
      (pages s) (hfetch s) hnf hnt hnn hz]
    simp [iterLoop]
  | succ f ih =>
    intro s count hcount
    obtain ⟨hnf, hnt, hnn, hz⟩ := hgood s
    obtain ⟨t1, ht1⟩ := hgrow s
    have hlen : (dataLinks (pages s).links).length ≤
        (dataLinks (pages (s + 1)).links).length := by
      rw [ht1]; simp
    have hrec := ih (s + 1) ((dataLinks (pages s).links).length) hlen
    obtain ⟨t, ht⟩ := chain_extends (fun k => dataLinks (pages k).links) hgrow s (1 + f)
    rw [iterLoop_step_refetch get_json retryLimit directory overwrite (f + 1) url s count
      (pages s) (hfetch s) hnf hnt hnn hz]
    rw [Nat.max_eq_right hcount, hrec]
    have hidx : (s + 1) + f = s + (1 + f) := by omega
    have hidx2 : s + (f + 1) = s + (1 + f) := by omega
    rw [hidx, hidx2]
    rw [show dataLinks (pages (s + (1 + f))).links = dataLinks (pages s).links ++ t from ht]
    simp [List.drop_left, List.drop_append_of_le_length hcount]

/-- When every attempt fails, the retry loop makes exactly `retryLimit`
attempts (the error payload is the attempt counter after the last one). -/
theorem get_json_with_retry_all_fail (get_json : Nat → String → Except Unit StatusPage)
    (url : String) :
    ∀ (retryLimit idx : Nat), 1 ≤ retryLimit →
      (∀ j, j < retryLimit → get_json (idx + j) url = .error ()) →
      get_json_with_retry get_json url idx retryLimit = .error (idx + retryLimit) := by
  intro retryLimit
  induction retryLimit with
  | zero => intro idx h _; exact absurd h (by decide)
  | succ L ih =>
    intro idx _ hfail
    have h0 : get_json idx url = .error () := by
      have := hfail 0 (Nat.succ_pos L)
      simpa using this
    cases L with
    | zero => simp [get_json_with_retry, h0]
    | succ L' =>
      have hrec := ih (idx + 1) (Nat.succ_le_succ (Nat.zero_le L'))
        (fun j hj => by
          have := hfail (j + 1) (by omega)
          rwa [show idx + (j + 1) = idx + 1 + j by omega] at this)
      calc get_json_with_retry get_json url idx (L' + 1 + 1)
          = get_json_with_retry get_json url (idx + 1) (L' + 1) := by
            simp [get_json_with_retry, h0]
        _ = .error (idx + 1 + (L' + 1)) := hrec
        _ = .error (idx + (L' + 1 + 1)) := by
            rw [show idx + 1 + (L' + 1) = idx + (L' + 1 + 1) by omega]

/-- When the first `k` attempts fail and attempt `k` (0-based) succeeds
within the limit, the retry loop returns that page, having consumed
`k + 1` attempts, and surfaces no error. -/
theorem get_json_with_retry_succeeds (get_json : Nat → String → Except Unit StatusPage)
    (url : String) :
    ∀ (k retryLimit idx : Nat) (page : StatusPage), k < retryLimit →
      (∀ j, j < k → get_json (idx + j) url = .error ()) →
      get_json (idx + k) url = .ok page →
      get_json_with_retry get_json url idx retryLimit = .ok (page, idx + k + 1) := by
  intro k
  induction k with
  | zero =>
    intro L idx page _ _ hok
    exact get_json_with_retry_ok get_json url idx page hok L
  | succ k ih =>
    intro L idx page hk hfail hok
    have h0 : get_json idx url = .error () := by
      have := hfail 0 (Nat.succ_pos k)
      simpa using this
    obtain ⟨L', rfl⟩ : ∃ L', L = L' + 2 := ⟨L - 2, by omega⟩
    have hrec := ih (L' + 1) (idx + 1) page (by omega)
      (fun j hj => by
        have := hfail (j + 1) (by omega)
        rwa [show idx + (j + 1) = idx + 1 + j by omega] at this)
      (by rwa [show idx + (k + 1) = idx + 1 + k by omega] at hok)
    calc get_json_with_retry get_json url idx (L' + 2)
        = get_json_with_retry get_json url (idx + 1) (L' + 1) := by
          simp [get_json_with_retry, h0]
      _ = .ok (page, idx + 1 + k + 1) := hrec
      _ = .ok (page, idx + (k + 1) + 1) := by
          rw [show idx + 1 + k + 1 = idx + (k + 1) + 1 by omega]

/-- The expected yields of a `next`-linked chain: all `data` links of pages
`u s, u (s + 1), …, u (s + n)`, in page order within each page and in
chain order across pages. -/
def chainYields (pageFor : String → StatusPage) (u : Nat → String)
    (directory : String) (overwrite : Bool) : Nat → Nat → List GranuleResult
  | s, 0 => (dataLinks (pageFor (u s)).links).map (mkGranule directory overwrite)
  | s, n + 1 =>
    (dataLinks (pageFor (u s)).links).map (mkGranule directory overwrite) ++
      chainYields pageFor u directory overwrite (s + 1) n

/-- Driving the loop along a static `next`-linked chain of `n + 1` pages
(each page is a function of its URL alone): all pages' `data` links are
yielded in chain order, the seen count restarting at zero on each page
move, and the run ends cleanly at the final `successful` page. -/
theorem iterLoop_chain (pageFor : String → StatusPage) (u : Nat → String)
    (retryLimit : Nat) (directory : String) (overwrite : Bool) :
    ∀ (n s idx : Nat),
      (∀ k, k < n → (pageFor (u (s + k))).status ≠ "failed" ∧
        lastNextUrl (pageFor (u (s + k))).links none = some (u (s + k + 1)) ∧
        zarrFree (pageFor (u (s + k))).links) →
      ((pageFor (u (s + n))).status = "successful" ∧
        (∀ l ∈ (pageFor (u (s + n))).links, l.rel ≠ "next") ∧
        zarrFree (pageFor (u (s + n))).links) →
      iterLoop (fun _ url => .ok (pageFor url)) retryLimit directory overwrite
          (n + 1) (u s) idx 0 =
        (chainYields pageFor u directory overwrite s n, .finished) := by
  intro n
  induction n with
  | zero =>
    intro s idx _ hlast
    obtain ⟨hst, hnn, hz⟩ := hlast
    simp only [Nat.add_zero] at hst hnn hz
    rw [iterLoop_step_terminal _ retryLimit directory overwrite 0 (u s) idx 0
      (pageFor (u s)) rfl (by rw [hst]; decide) hnn hz]
    simp [chainYields]
  | succ n ih =>
    intro s idx hmid hlast
    obtain ⟨hnf, hnext, hz⟩ := hmid 0 (Nat.succ_pos n)
    rw [iterLoop_step_next _ retryLimit directory overwrite (n + 1) (u s) idx 0
      (pageFor (u s)) (u (s + 1)) rfl hnf hnext hz]
    rw [ih (s + 1) (idx + 1)
      (fun k hk => by
        have := hmid (k + 1) (by omega)
        rwa [show s + (k + 1) = s + 1 + k by omega] at this)
      (by rwa [show s + (n + 1) = s + 1 + n by omega] at hlast)]
    simp [chainYields]

/-! ### Claim theorems -/

/-- **C1** (no duplicate yields): in every run in which the iterator keeps
re-fetching the same status URL (each fetched snapshot has no `next` link
and a non-terminal, non-`failed` status) and every re-fetch extends the
previous `data`-link list by appending, the yields of the whole run are
exactly the final snapshot's `data` links, in order — so every data-link
index on the page is yielded exactly once, and in particular at most once,
and an index at or below a previous counter value is never re-emitted;
moreover `current_page_granule_count` never decreases across a pass of the
link loop. -/
theorem no_duplicate_yields
    (get_json : Nat → String → Except Unit StatusPage) (pages : Nat → StatusPage)
    (retryLimit : Nat) (directory url : String) (overwrite : Bool) (f : Nat)
    (hfetch : ∀ k, get_json k url = .ok (pages k))
    (hgood : ∀ k, refetchPage (pages k))
    (hgrow : ∀ k, ∃ t,
      dataLinks (pages (k + 1)).links = dataLinks (pages k).links ++ t) :
    (iterLoop get_json retryLimit directory overwrite (f + 1) url 0 0).1 =
      (dataLinks (pages f).links).map (mkGranule directory overwrite) ∧
    (∀ (links : List Link) (li count : Nat) (nu : Option String)
       (gs : List GranuleResult) (c' : Nat) (nu' : Option String),
       processLinks directory overwrite links li count nu = .ok (gs, c', nu') →
       count ≤ c') := by
  refine ⟨?_, fun links li count nu gs c' nu' h =>
    processLinks_count_mono directory overwrite links li count nu gs c' nu' h⟩
  rw [iterLoop_refetch get_json pages retryLimit directory url overwrite hfetch hgood
    hgrow f 0 0 (Nat.zero_le _)]
  simp

/-- A concrete in-progress page used to instantiate C1. -/
def pageC1 : StatusPage :=
  ⟨"running", "",
    [⟨"data", "https://h/a1.nc", (0, 0, 0, 0), ("s", "e")⟩,
     ⟨"data", "https://h/a2.nc", (0, 0, 0, 0), ("s", "e")⟩]⟩

theorem no_duplicate_yields_witness :
    refetchPage pageC1 ∧
    (iterLoop (fun _ _ => .ok pageC1) 3 "" false 3 "u" 0 0).1 =
      (dataLinks pageC1.links).map (mkGranule "" false) :=
  ⟨by decide,
   (no_duplicate_yields (fun _ _ => .ok pageC1) (fun _ => pageC1) 3 "" "u" false 2
     (fun _ => rfl) (fun _ => (by decide : refetchPage pageC1))
     (fun _ => ⟨[], by simp⟩)).1⟩

/-- **C2** (job failure halts immediately): whenever the fetch inside the
loop parses a page whose `status` is `failed`, the iterator raises an
exception carrying that page's `message` before classifying or yielding
any of its links — no matter how many data links the page holds, for every
retry limit (no retry is applied) and every prior seen count — and the
exception ends the sequence. -/
theorem job_failure_halts
    (get_json : Nat → String → Except Unit StatusPage) (retryLimit : Nat)
    (directory : String) (overwrite : Bool) (fuel : Nat) (url : String)
    (idx count : Nat) (page : StatusPage)
    (hfetch : get_json idx url = .ok page)
    (hst : page.status = "failed") :
    iterLoop get_json retryLimit directory overwrite (fuel + 1) url idx count =
      ([], .jobFailed page.message) :=
  iterLoop_step_failed get_json retryLimit directory overwrite fuel url idx count page
    hfetch hst

/-- A failed page still holding a data link, used to instantiate C2. -/
def pageC2 : StatusPage :=
  ⟨"failed", "service exploded",
    [⟨"data", "https://h/b1.nc", (0, 0, 0, 0), ("s", "e")⟩]⟩

theorem job_failure_halts_witness :
    pageC2.status = "failed" ∧ pageC2.links ≠ [] ∧
    iterLoop (fun _ _ => .ok pageC2) 3 "" false 5 "u" 0 0 =
      ([], .jobFailed pageC2.message) :=
  ⟨rfl, by decide,
   job_failure_halts (fun _ _ => .ok pageC2) 3 "" false 4 "u" 0 0 pageC2 rfl rfl⟩

/-- **C10** (unknown statuses are non-terminal): a fetched page whose
status is neither `failed` nor in the terminal set — whatever unrecognized
string it is — with no `next` link neither ends the sequence nor raises:
the loop yields the page's new items and re-fetches the same URL with the
seen count advanced; and the pacing sleep is never negative and always
tops elapsed time up to at least `check_interval`. -/
theorem unknown_status_nonterminal
    (get_json : Nat → String → Except Unit StatusPage) (retryLimit : Nat)
    (directory : String) (overwrite : Bool) (fuel : Nat) (url : String)
    (idx count : Nat) (page : StatusPage)
    (hfetch : get_json idx url = .ok page)
    (hnf : page.status ≠ "failed")
    (hnt : page.status ∉ terminalStatuses)
    (hnn : ∀ l ∈ page.links, l.rel ≠ "next")
    (hz : zarrFree page.links) :
    (iterLoop get_json retryLimit directory overwrite (fuel + 1) url idx count =
      (((dataLinks page.links).drop count).map (mkGranule directory overwrite) ++
        (iterLoop get_json retryLimit directory overwrite fuel url (idx + 1)
          (max count (dataLinks page.links).length)).1,
       (iterLoop get_json retryLimit directory overwrite fuel url (idx + 1)
          (max count (dataLinks page.links).length)).2)) ∧
    (∀ check_interval seconds_since_last_pull : Rat,
      0 ≤ pollSleepSeconds check_interval seconds_since_last_pull ∧
      check_interval ≤
        seconds_since_last_pull + pollSleepSeconds check_interval seconds_since_last_pull) := by
  refine ⟨iterLoop_step_refetch get_json retryLimit directory overwrite fuel url idx
    count page hfetch hnf hnt hnn hz, fun ci e => ?_⟩
  unfold pollSleepSeconds
  split
  · constructor <;> linarith
  · constructor <;> linarith

/-- A page with an unrecognized status string, used to instantiate C10. -/
def pageC10 : StatusPage :=
  ⟨"previewing", "", [⟨"data", "https://h/c1.nc", (0, 0, 0, 0), ("s", "e")⟩]⟩

theorem unknown_status_nonterminal_witness :
    pageC10.status ≠ "failed" ∧ pageC10.status ∉ terminalStatuses ∧
    (iterLoop (fun _ _ => .ok pageC10) 3 "" false 4 "u" 7 0 =
      (((dataLinks pageC10.links).drop 0).map (mkGranule "" false) ++
        (iterLoop (fun _ _ => .ok pageC10) 3 "" false 3 "u" 8
          (max 0 (dataLinks pageC10.links).length)).1,
       (iterLoop (fun _ _ => .ok pageC10) 3 "" false 3 "u" 8
          (max 0 (dataLinks pageC10.links).length)).2)) ∧
    0 ≤ pollSleepSeconds 3 (5 / 4) ∧
    (3 : Rat) ≤ 5 / 4 + pollSleepSeconds 3 (5 / 4) :=
  ⟨by decide, by decide,
   (unknown_status_nonterminal (fun _ _ => .ok pageC10) 3 "" false 3 "u" 7 0 pageC10
     rfl (by decide) (by decide) (by decide) (by decide)).1,
   ((unknown_status_nonterminal (fun _ _ => .ok pageC10) 3 "" false 3 "u" 7 0 pageC10
     rfl (by decide) (by decide) (by decide) (by decide)).2 3 (5 / 4)).1,
   ((unknown_status_nonterminal (fun _ _ => .ok pageC10) 3 "" false 3 "u" 7 0 pageC10
     rfl (by decide) (by decide) (by decide) (by decide)).2 3 (5 / 4)).2⟩

/-- **C3** (bounded fetch retry with terminal escalation): if every
`_get_json` attempt throws, the retry wrapper makes exactly `retryLimit`
attempts (for any limit ≥ 1; the error payload is the attempt counter after
the last attempt) and the iterator raises the terminal stream error; if
some attempt with index below the limit succeeds (all earlier ones
throwing), no error surfaces and the wrapper hands the parsed page to the
loop; the configured defaults are 3 attempts and a 1-second delay. -/
theorem fetch_retry_bounds (get_json : Nat → String → Except Unit StatusPage)
    (url : String) :
    (∀ (retryLimit idx : Nat), 1 ≤ retryLimit →
      (∀ j, j < retryLimit → get_json (idx + j) url = .error ()) →
      get_json_with_retry get_json url idx retryLimit = .error (idx + retryLimit) ∧
      ∀ (directory : String) (overwrite : Bool) (fuel count : Nat),
        iterLoop get_json retryLimit directory overwrite (fuel + 1) url idx count =
          ([], .fetchFailed)) ∧
    (∀ (retryLimit idx k : Nat) (page : StatusPage), k < retryLimit →
      (∀ j, j < k → get_json (idx + j) url = .error ()) →
      get_json (idx + k) url = .ok page →
      get_json_with_retry get_json url idx retryLimit = .ok (page, idx + k + 1)) ∧
    GET_JSON_RETRY_LIMIT_default = 3 ∧ GET_JSON_RETRY_SLEEP_default = 1 := by
  refine ⟨fun retryLimit idx h1 hfail => ⟨?_, ?_⟩,
    fun retryLimit idx k page hk hfail hok =>
      get_json_with_retry_succeeds get_json url k retryLimit idx page hk hfail hok,
    rfl, rfl⟩
  · exact get_json_with_retry_all_fail get_json url retryLimit idx h1 hfail
  · intro directory overwrite fuel count
    simp [iterLoop, get_json_with_retry_all_fail get_json url retryLimit idx h1 hfail]

/-- An empty successful page, used to instantiate C3's success branch. -/
def pageC3 : StatusPage := ⟨"successful", "", []⟩

/-- A fetch oracle that throws on the first two attempts and then parses. -/
def failTwiceOracle : Nat → String → Except Unit StatusPage
  | 0, _ => .error ()
  | 1, _ => .error ()
  | _, _ => .ok pageC3

theorem fetch_retry_bounds_witness :
    (get_json_with_retry (fun _ _ => .error ()) "u" 0 2 = .error (0 + 2)) ∧
    (iterLoop (fun _ _ => .error ()) 2 "" false 1 "u" 0 0 = ([], .fetchFailed)) ∧
    (get_json_with_retry failTwiceOracle "u" 0 3 = .ok (pageC3, 0 + 2 + 1)) :=
  ⟨((fetch_retry_bounds (fun _ _ => .error ()) "u").1 2 0 (by decide)
      (fun _ _ => rfl)).1,
   ((fetch_retry_bounds (fun _ _ => .error ()) "u").1 2 0 (by decide)
      (fun _ _ => rfl)).2 "" false 0 0,
   (fetch_retry_bounds failTwiceOracle "u").2.1 3 0 2 pageC3 (by decide)
     (fun j hj => by
       rcases j with _ | _ | j
       · rfl
       · rfl
       · exact absurd hj (by omega))
     rfl⟩

/-- **C4** (pause ends the stream cleanly): a fetched `paused` page with no
`next` link ends the sequence normally (no exception), after still yielding
every data link beyond the current seen count; and any fresh `iterator`
call rebuilds the cursor from the job's original status URL with a seen
count of zero. -/
theorem paused_ends_cleanly
    (get_json : Nat → String → Except Unit StatusPage) (retryLimit : Nat)
    (directory : String) (overwrite : Bool) (fuel : Nat) (url : String)
    (idx count : Nat) (page : StatusPage)
    (hfetch : get_json idx url = .ok page)
    (hst : page.status = "paused")
    (hnn : ∀ l ∈ page.links, l.rel ≠ "next")
    (hz : zarrFree page.links) :
    iterLoop get_json retryLimit directory overwrite (fuel + 1) url idx count =
      (((dataLinks page.links).drop count).map (mkGranule directory overwrite),
       .finished) ∧
    (∀ (root_url job_id dir : String) (ov : Bool) (fl : Nat),
      iterator get_json retryLimit root_url job_id dir ov fl =
        iterLoop get_json retryLimit dir ov fl (status_url root_url job_id) 0 0) :=
  ⟨iterLoop_step_terminal get_json retryLimit directory overwrite fuel url idx count
     page hfetch (by rw [hst]; decide) hnn hz,
   fun _ _ _ _ _ => rfl⟩

/-- A paused page with two data links, used to instantiate C4. -/
def pageC4 : StatusPage :=
  ⟨"paused", "",
    [⟨"data", "https://h/d1.nc", (0, 0, 0, 0), ("s", "e")⟩,
     ⟨"data", "https://h/d2.nc", (0, 0, 0, 0), ("s", "e")⟩]⟩

theorem paused_ends_cleanly_witness :
    pageC4.status = "paused" ∧
    iterLoop (fun _ _ => .ok pageC4) 3 "" false 6 "u" 0 0 =
      (((dataLinks pageC4.links).drop 0).map (mkGranule "" false), .finished) ∧
    iterator (fun _ _ => .ok pageC4) 3 "https://harmony.earthdata.nasa.gov" "job1"
        "" false 6 =
      iterLoop (fun _ _ => .ok pageC4) 3 "" false 6
        (status_url "https://harmony.earthdata.nasa.gov" "job1") 0 0 :=
  ⟨rfl,
   (paused_ends_cleanly (fun _ _ => .ok pageC4) 3 "" false 5 "u" 0 0 pageC4 rfl rfl
     (by decide) (by decide)).1,
   (paused_ends_cleanly (fun _ _ => .ok pageC4) 3 "" false 5 "u" 0 0 pageC4 rfl rfl
     (by decide) (by decide)).2 "https://harmony.earthdata.nasa.gov" "job1" "" false 6⟩

/-- **C5** (pagination order and clean completion): along any chain of
pages linked by `next` links (each page a function of its URL), the
iterator yields descriptors in the order the `data` links appear within
each page, visits pages in `next`-link order with the seen count reset to
zero at each page change (every later page's links are yielded in full),
and ends cleanly at the final `next`-less `successful` page. -/
theorem pagination_order
    (pageFor : String → StatusPage) (u : Nat → String) (retryLimit : Nat)
    (directory : String) (overwrite : Bool) (n : Nat)
    (hmid : ∀ k, k < n → (pageFor (u k)).status ≠ "failed" ∧
      lastNextUrl (pageFor (u k)).links none = some (u (k + 1)) ∧
      zarrFree (pageFor (u k)).links)
    (hlast : (pageFor (u n)).status = "successful" ∧
      (∀ l ∈ (pageFor (u n)).links, l.rel ≠ "next") ∧
      zarrFree (pageFor (u n)).links) :
    iterLoop (fun _ url => .ok (pageFor url)) retryLimit directory overwrite
        (n + 1) (u 0) 0 0 =
      (chainYields pageFor u directory overwrite 0 n, .finished) := by
  apply iterLoop_chain pageFor u retryLimit directory overwrite n 0 0
  · intro k hk
    simpa using hmid k hk
  · simpa using hlast

/-- First chain page: three data links (one after the `next` link). -/
def pageC5a : StatusPage :=
  ⟨"running", "",
    [⟨"data", "https://h/p1a.nc", (0, 0, 0, 0), ("s", "e")⟩,
     ⟨"data", "https://h/p1b.nc", (0, 0, 0, 0), ("s", "e")⟩,
     ⟨"next", "B", (0, 0, 0, 0), ("", "")⟩,
     ⟨"data", "https://h/p1c.nc", (0, 0, 0, 0), ("s", "e")⟩]⟩

/-- Second chain page: two data links, `successful`, no `next`. -/
def pageC5b : StatusPage :=
  ⟨"successful", "",
    [⟨"data", "https://h/p2a.nc", (0, 0, 0, 0), ("s", "e")⟩,
     ⟨"data", "https://h/p2b.nc", (0, 0, 0, 0), ("s", "e")⟩]⟩

/-- The two-page service of the C5 witness, keyed by URL. -/
def pageForC5 : String → StatusPage := fun url => if url = "B" then pageC5b else pageC5a

/-- The URL chain of the C5 witness. -/
def uC5 : Nat → String := fun k => if k = 0 then "A" else "B"

theorem pagination_order_witness :
    (iterLoop (fun _ url => .ok (pageForC5 url)) 3 "" false 2 (uC5 0) 0 0 =
      (chainYields pageForC5 uC5 "" false 0 1, .finished)) ∧
    (chainYields pageForC5 uC5 "" false 0 1).length = 5 :=
  ⟨pagination_order pageForC5 uC5 3 "" false 1
     (fun k hk => by
       have hk0 : k = 0 := by omega
       subst hk0
       exact ⟨by decide, by decide, by decide⟩)
     ⟨by decide, by decide, by decide⟩,
   by decide⟩

/-- **C6** (unsupported archive format rejected pre-dispatch): for a URL
ending in `zarr`, `download` raises the zarr exception synchronously —
no task reaches the worker pool, so no network activity can occur for the
item; for any other URL it submits the task and returns the future at
once. -/
theorem zarr_rejected_pre_dispatch (url directory : String) (overwrite : Bool) :
    (endsWith url "zarr" = true →
      download url directory overwrite = .error zarr_download_exception_msg) ∧
    (endsWith url "zarr" = false →
      download url directory overwrite = .ok ⟨url, directory, overwrite⟩) := by
  constructor <;> intro h <;> simp [download, h]

theorem zarr_rejected_pre_dispatch_witness :
    endsWith "https://h/out.zarr" "zarr" = true ∧
    download "https://h/out.zarr" "" false = .error zarr_download_exception_msg ∧
    endsWith "https://h/out.nc4" "zarr" = false ∧
    download "https://h/out.nc4" "" false = .ok ⟨"https://h/out.nc4", "", false⟩ :=
  ⟨by decide,
   (zarr_rejected_pre_dispatch "https://h/out.zarr" "" false).1 (by decide),
   by decide,
   (zarr_rejected_pre_dispatch "https://h/out.nc4" "" false).2 (by decide)⟩

/-- **C7** (idempotent re-download short-circuit): with `overwrite` false,
whenever the file at the destination path computed from the URL already
exists, the download worker returns that path issuing no HTTP request and
writing nothing; no content check is involved. -/
theorem existing_file_short_circuit (existing_files : List String)
    (url directory fn : String)
    (hname : get_download_filename_from_url url = .ok fn)
    (hexists : existing_files.contains
      (if directory = "" then fn else os_path_join directory fn) = true) :
    download_file existing_files url directory false =
      .ok ⟨if directory = "" then fn else os_path_join directory fn, none, none⟩ := by
  simp only [download_file, hname, Bool.not_false, Bool.true_and]
  rw [if_pos hexists]

theorem existing_file_short_circuit_witness :
    get_download_filename_from_url "https://h/g1.nc" = .ok "g1.nc" ∧
    (["out/g1.nc"].contains
      (if "out" = "" then "g1.nc" else os_path_join "out" "g1.nc")) = true ∧
    download_file ["out/g1.nc"] "https://h/g1.nc" "out" false =
      .ok ⟨if "out" = "" then "g1.nc" else os_path_join "out" "g1.nc", none, none⟩ :=
  ⟨by decide, by decide,
   existing_file_short_circuit ["out/g1.nc"] "https://h/g1.nc" "out" "g1.nc"
     (by decide) (by decide)⟩

/-- The spec's staged-result path shape, read off the three checks the
source applies to the split URL: at least three `/`-separated parts, the
third-from-last a canonical version-4 UUID, the second-from-last numeric. -/
def matches_staged_shape (url_no_query : String) : Bool :=
  let parts := pySplit url_no_query '/'
  decide (3 ≤ parts.length) &&
  is_canonical_uuid4 (parts.getD (parts.length - 3) "") &&
  py_isnumeric (parts.getD (parts.length - 2) "")

/-- Whenever the split URL has enough parts for the indexing to be in
bounds, `_is_staged_result` decides exactly `harmony`-containment plus the
staged path shape. -/
theorem is_staged_result_eq (u : String)
    (h3 : containsSub u "harmony" = true → 3 ≤ (pySplit u '/').length) :
    is_staged_result u = .ok (containsSub u "harmony" && matches_staged_shape u) := by
  by_cases hh : containsSub u "harmony" = true
  · have hlen := h3 hh
    unfold is_staged_result matches_staged_shape
    simp only [hh, Bool.not_true, Bool.false_eq_true, if_false, Bool.true_and]
    rw [if_neg (by simp [Nat.not_lt.mpr hlen]), decide_eq_true hlen]
    cases hu : is_canonical_uuid4 ((pySplit u '/').getD ((pySplit u '/').length - 3) "")
    · simp
    · simp only [Bool.not_true, Bool.false_eq_true, if_false, Bool.true_and]
      cases hn : py_isnumeric ((pySplit u '/').getD ((pySplit u '/').length - 2) "")
      · simp
      · simp
  · have hh' : containsSub u "harmony" = false := by
      revert hh; cases containsSub u "harmony" <;> simp
    simp [is_staged_result, hh']

/-- Closed form of the filename derivation on URLs where the staged check
cannot fault: the last path segment of the query-stripped URL, prefixed by
the numeric id exactly when the URL contains `harmony` and matches the
staged shape, with colons replaced throughout. -/
theorem get_download_filename_eq (url : String)
    (h3 : containsSub (strip_query url) "harmony" = true →
      3 ≤ (pySplit (strip_query url) '/').length) :
    get_download_filename_from_url url =
      .ok (if containsSub (strip_query url) "harmony" &&
            matches_staged_shape (strip_query url) then
        replaceColon ((pySplit (strip_query url) '/').getD
            ((pySplit (strip_query url) '/').length - 2) "" ++ "_" ++
          (pySplit (strip_query url) '/').getLastD "")
      else replaceColon ((pySplit (strip_query url) '/').getLastD "")) := by
  simp only [get_download_filename_from_url]
  rw [is_staged_result_eq _ h3]
  cases h : (containsSub (strip_query url) "harmony" &&
    matches_staged_shape (strip_query url)) <;> simp [h]

/-- C8 as stated fails on the code: this URL's last three path segments
match the staged `<uuid>/<numeric-id>/<filename>` shape, yet the returned
filename carries no numeric-id prefix, because the URL does not contain
the substring `harmony` (a condition the source checks first). -/
theorem staged_filename_counterexample :
    matches_staged_shape (strip_query
      "https://example.com/6ba7b812-9dad-41d1-80b4-00c04fd430c8/123/data.nc") = true ∧
    get_download_filename_from_url
      "https://example.com/6ba7b812-9dad-41d1-80b4-00c04fd430c8/123/data.nc" =
      .ok "data.nc" ∧
    (Except.ok "data.nc" : Except Unit String) ≠ .ok "123_data.nc" :=
  ⟨by decide, by decide, by decide⟩

/-- **C8 (amended)** (staged-result filename prefixing): for every URL whose
query-stripped form contains the substring `harmony` and whose last three
path segments match `<canonical-lowercase-v4-uuid>/<numeric-id>/<filename>`,
the derived filename is the last segment prefixed with the numeric id and
an underscore (colons substituted); for every URL on which the staged check
completes without matching — one lacking the `harmony` substring, or one
with at least three segments that fails the shape — the derived filename is
the last segment unchanged aside from the colon substitution. -/
theorem staged_filename_prefixing (url : String) :
    (containsSub (strip_query url) "harmony" = true →
      matches_staged_shape (strip_query url) = true →
      get_download_filename_from_url url =
        .ok (replaceColon ((pySplit (strip_query url) '/').getD
            ((pySplit (strip_query url) '/').length - 2) "" ++ "_" ++
          (pySplit (strip_query url) '/').getLastD ""))) ∧
    ((containsSub (strip_query url) "harmony" = false ∨
        (matches_staged_shape (strip_query url) = false ∧
          3 ≤ (pySplit (strip_query url) '/').length)) →
      get_download_filename_from_url url =
        .ok (replaceColon ((pySplit (strip_query url) '/').getLastD ""))) := by
  constructor
  · intro hharm hshape
    have hlen : 3 ≤ (pySplit (strip_query url) '/').length := by
      have h := hshape
      simp only [matches_staged_shape, Bool.and_eq_true, decide_eq_true_eq] at h
      exact h.1.1
    rw [get_download_filename_eq url (fun _ => hlen)]
    simp [hharm, hshape]
  · intro h
    rcases h with hharm | ⟨hshape, hlen⟩
    · rw [get_download_filename_eq url (fun hc => absurd hc (by simp [hharm]))]
      simp [hharm]
    · rw [get_download_filename_eq url (fun _ => hlen)]
      simp [hshape]

/-- A staged result URL (contains `harmony`, canonical v4 UUID, numeric
item id) whose filename also exercises the colon substitution. -/
def urlC8 : String :=
  "https://harmony.earthdata.nasa.gov/results/6ba7b812-9dad-41d1-80b4-00c04fd430c8/456/gran:a.nc4?p=1"

theorem staged_filename_prefixing_witness :
    containsSub (strip_query urlC8) "harmony" = true ∧
    matches_staged_shape (strip_query urlC8) = true ∧
    get_download_filename_from_url urlC8 =
      .ok (replaceColon ((pySplit (strip_query urlC8) '/').getD
          ((pySplit (strip_query urlC8) '/').length - 2) "" ++ "_" ++
        (pySplit (strip_query urlC8) '/').getLastD "")) ∧
    get_download_filename_from_url urlC8 = .ok "456_gran_a.nc4" :=
  ⟨by decide, by decide,
   (staged_filename_prefixing urlC8).1 (by decide) (by decide),
   by decide⟩

/-- **C9** (special-cased protocol uses form-encoded POST): whenever the
download worker actually issues a request (no existing-file short circuit),
a URL whose network location starts with `opendap` gets a single POST to
the query-stripped URL with the former query parameters as the
form-encoded body, and any other URL gets a single GET with the URL
unchanged and no body. -/
theorem opendap_uses_form_post (existing_files : List String)
    (url directory fn : String) (overwrite : Bool)
    (hname : get_download_filename_from_url url = .ok fn)
    (hmiss : (!overwrite && existing_files.contains
      (if directory = "" then fn else os_path_join directory fn)) = false) :
    (startsWith (netloc url) "opendap" = true →
      download_file existing_files url directory overwrite =
        .ok ⟨if directory = "" then fn else os_path_join directory fn,
             some ⟨"post", strip_query url,
               some (dict_of_pairs (parse_qsl_pairs (query_string url)))⟩,
             some (if directory = "" then fn else os_path_join directory fn)⟩) ∧
    (startsWith (netloc url) "opendap" = false →
      download_file existing_files url directory overwrite =
        .ok ⟨if directory = "" then fn else os_path_join directory fn,
             some ⟨"get", url, none⟩,
             some (if directory = "" then fn else os_path_join directory fn)⟩) := by
  constructor
  · intro h
    simp only [download_file, hname, hmiss, Bool.false_eq_true, if_false, h, if_true]
  · intro h
    simp only [download_file, hname, hmiss, Bool.false_eq_true, if_false, h]

/-- An OPeNDAP subset URL, used to instantiate C9's POST branch. -/
def urlC9post : String :=
  "https://opendap.earthdata.nasa.gov/collections/C1/granules/g1.nc4?dap4.ce=lat&fmt=nc4"

/-- A plain download URL, used to instantiate C9's GET branch. -/
def urlC9get : String := "https://data.example.com/stage/g2.nc4"

theorem opendap_uses_form_post_witness :
    get_download_filename_from_url urlC9post = .ok "g1.nc4" ∧
    startsWith (netloc urlC9post) "opendap" = true ∧
    download_file [] urlC9post "" false =
      .ok ⟨if "" = "" then "g1.nc4" else os_path_join "" "g1.nc4",
           some ⟨"post", strip_query urlC9post,
             some (dict_of_pairs (parse_qsl_pairs (query_string urlC9post)))⟩,
           some (if "" = "" then "g1.nc4" else os_path_join "" "g1.nc4")⟩ ∧
    startsWith (netloc urlC9get) "opendap" = false ∧
    download_file [] urlC9get "" false =
      .ok ⟨if "" = "" then "g2.nc4" else os_path_join "" "g2.nc4",
           some ⟨"get", urlC9get, none⟩,
           some (if "" = "" then "g2.nc4" else os_path_join "" "g2.nc4")⟩ :=
  ⟨by decide, by decide,
   (opendap_uses_form_post [] urlC9post "" "g1.nc4" false (by decide) (by decide)).1
     (by decide),
   by decide,
   (opendap_uses_form_post [] urlC9get "" "g2.nc4" false (by decide) (by decide)).2
     (by decide)⟩

end HarmonyPy
